import Mathlib

/-!
Shallow embedding of the VnedraidTBank backend pieces under verification:

* `NoDuplicates.py` — the Annoy-based near-duplicate news removal routine
  `deduplicate_news_with_annoy`.  The sentence-transformer embeddings, the
  exact pairwise cosine similarity (`util.cos_sim`) and the approximate
  nearest-neighbor query (`annoy_index.get_nns_by_item`) are external library
  calls; they enter the model as oracle parameters `sim`, `nnsIdx`, `nnsDist`.
  Similarity scores are modelled as rationals.
* `app/api/routes/users.py` — tag-score updates on like/dislike and the
  favorite-tickers string endpoints.
* `app/api/routes/news.py` — the news-list query with the per-user interest
  filter and the get-news-by-id endpoint.
* `app/api/routes/recommendations.py` — the 404/LLM-call skeleton of the
  recommendation endpoint (the LLM is an oracle parameter).
* `app/core/constants.py` — `TAG_MAP` and `FIELD_MAP`.

Python strings are modelled as Lean `String`; `str.split(',')`, `str.strip()`
and `', '.join(...)` are re-implemented on `List Char` to mirror Python
semantics, and SQLAlchemy `column.contains(x)` (SQL `LIKE %x%`) is modelled as
substring containment.
-/

/-! ### String helpers mirroring Python primitives -/

/-- Model of Python `str.split(',')` at the character level: cut the character
list at every comma, keeping empty pieces (Python keeps them too). -/
def splitCommaAux (acc : List Char) : List Char → List (List Char)
  | [] => [acc.reverse]
  | c :: rest =>
      if c = ',' then acc.reverse :: splitCommaAux [] rest
      else splitCommaAux (c :: acc) rest

/-- Model of Python `s.split(',')` on strings. -/
def pySplitComma (s : String) : List String :=
  (splitCommaAux [] s.data).map String.mk

/-- Model of Python `str.strip()`: drop whitespace from both ends. -/
def pyStrip (s : String) : String :=
  String.mk (((s.data.dropWhile Char.isWhitespace).reverse.dropWhile Char.isWhitespace).reverse)

/-- Split on commas and strip every piece, as in
`[t.strip() for t in s.split(',')]`. -/
def pySplitStrip (s : String) : List String :=
  (pySplitComma s).map pyStrip

/-- Model of Python `sep in column` / SQL `LIKE`: Boolean test that `pat` is a
prefix of `hay` (helper for substring containment). -/
def leadingMatch : List Char → List Char → Bool
  | [], _ => true
  | _ :: _, [] => false
  | a :: as, b :: bs => a == b && leadingMatch as bs

/-- Boolean substring containment on character lists. -/
def containsSub (pat : List Char) : List Char → Bool
  | [] => leadingMatch pat []
  | c :: rest => leadingMatch pat (c :: rest) || containsSub pat rest

/-- Model of SQLAlchemy `column.contains(pattern)` (SQL `LIKE '%pattern%'`). -/
def sqlContains (column pattern : String) : Bool :=
  containsSub pattern.data column.data

/-- Python string comparison (`sorted` on `str`) is code-point lexicographic;
this is the lexicographic order on the underlying character lists. -/
def strLe (a b : String) : Prop := a.data ≤ b.data

instance (a b : String) : Decidable (strLe a b) := by unfold strLe; infer_instance

instance : IsTrans String strLe := ⟨fun _ _ _ h1 h2 => le_trans h1 h2⟩

instance : IsTotal String strLe := ⟨fun a b => le_total a.data b.data⟩

instance : IsAntisymm String strLe :=
  ⟨fun a b h1 h2 => by
    cases a; cases b; exact congrArg String.mk (le_antisymm h1 h2)⟩

/-- Model of Python `", ".join(pieces)`. -/
def joinCommaSpace : List String → String
  | [] => ""
  | [x] => x
  | x :: xs => x ++ ", " ++ joinCommaSpace xs

/-! ### `NoDuplicates.py`: `deduplicate_news_with_annoy` -/

/-- A scraped news item as consumed by `deduplicate_news_with_annoy`
(dictionary with `title` and `full_text`). -/
structure Article where
  title : String
  full_text : String
deriving DecidableEq, Repr

/-- The texts that are embedded, one per article:
`f"{article['title']}. {article['full_text']}"`. -/
def textsToVectorize (articles : List Article) : List String :=
  articles.map (fun article => article.title ++ ". " ++ article.full_text)

/-- Inner loop of the dedup routine over the neighbors at positions `1..` of
one query result: a neighbor whose recomputed similarity to the anchor `i`
exceeds the threshold is added to the duplicate set.  `neighborDistances` is
the second component returned by the Annoy query; the source binds it but
never reads it, and the model mirrors that. -/
def processNeighbors (sim : Nat → Nat → ℚ) (threshold : ℚ) (i : Nat)
    (neighbors : List Nat) (neighborDistances : List ℚ) (D : Finset Nat) : Finset Nat :=
  (neighbors.drop 1).foldl
    (fun acc neighborIdx =>
      if sim i neighborIdx > threshold then insert neighborIdx acc else acc) D

/-- State of the single pass over article indices: the seen-set
`duplicate_indices` and (instrumentation) the list of `(item, k)` arguments of
the `get_nns_by_item` calls made so far. -/
structure DedupState where
  duplicate_indices : Finset Nat
  queried : List (Nat × Nat)
deriving DecidableEq

/-- One iteration of `for i in range(len(articles))`: an index already in the
seen-set is skipped (`continue`); otherwise a `k = 5` nearest-neighbor query
is issued for it, and its similar-enough neighbors are marked. -/
def dedupStep (sim : Nat → Nat → ℚ) (nnsIdx : Nat → Nat → List Nat)
    (nnsDist : Nat → Nat → List ℚ) (threshold : ℚ) (st : DedupState) (i : Nat) : DedupState :=
  if i ∈ st.duplicate_indices then st
  else
    { duplicate_indices :=
        processNeighbors sim threshold i (nnsIdx i 5) (nnsDist i 5) st.duplicate_indices,
      queried := st.queried ++ [(i, 5)] }

/-- State after the first `m` iterations of the pass (the full routine runs
`m = articles.length` of them). -/
def dedupLoop (sim : Nat → Nat → ℚ) (nnsIdx : Nat → Nat → List Nat)
    (nnsDist : Nat → Nat → List ℚ) (threshold : ℚ) (m : Nat) : DedupState :=
  (List.range m).foldl (dedupStep sim nnsIdx nnsDist threshold) ⟨∅, []⟩

/-- Indices of the input that survive deduplication (those never marked). -/
def survivorIndices (sim : Nat → Nat → ℚ) (nnsIdx : Nat → Nat → List Nat)
    (nnsDist : Nat → Nat → List ℚ) (threshold : ℚ) (n : Nat) : List Nat :=
  (List.range n).filter
    (fun idx => decide (idx ∉ (dedupLoop sim nnsIdx nnsDist threshold n).duplicate_indices))

/-- Model of `deduplicate_news_with_annoy`.  `sim i j` is the exact cosine
similarity of the stored embeddings of input items `i` and `j`; `nnsIdx i k`
and `nnsDist i k` are the index list and distance list returned by
`annoy_index.get_nns_by_item(i, k, include_distances=True)`. -/
def deduplicate_news_with_annoy (articles : List Article) (sim : Nat → Nat → ℚ)
    (nnsIdx : Nat → Nat → List Nat) (nnsDist : Nat → Nat → List ℚ)
    (threshold : ℚ) : List Article :=
  if articles.isEmpty then []
  else
    (articles.enum.filter
      (fun p =>
        decide (p.1 ∉ (dedupLoop sim nnsIdx nnsDist threshold articles.length).duplicate_indices))).map
      Prod.snd

/-! ### `app/core/constants.py` -/

/-- `TAG_MAP`: user model field name to tag display name, in source order. -/
def TAG_MAP : List (String × String) :=
  [("tag_energy", "энергетика"),
   ("tag_finance", "финансы"),
   ("tag_tech", "технологии"),
   ("tag_industry", "промышленность"),
   ("tag_consumer_sector", "потребительский сектор"),
   ("tag_infrastructure", "инфраструктура"),
   ("tag_agriculture", "сельское хозяйство"),
   ("tag_healthcare", "здравоохранение"),
   ("tag_real_estate", "недвижимость"),
   ("tag_materials", "материалы"),
   ("tag_telecom", "телекоммуникации"),
   ("tag_entertainment", "развлечения"),
   ("tag_education", "образование"),
   ("tag_ecommerce", "электронная коммерция")]

/-- `FIELD_MAP = {v: k for k, v in TAG_MAP.items()}` as a lookup. -/
def FIELD_MAP (tagName : String) : Option String :=
  (TAG_MAP.find? (fun p => p.2 == tagName)).map Prod.fst

/-! ### Users, news articles and application state -/

/-- The current user, restricted to what the verified endpoints touch: the
integer tag-score columns (`getattr`/`setattr` by field name) and the
`tickers` string column (`None` modelled as `""`). -/
structure UserM where
  scores : String → Int
  tickers : String

/-- A stored news article (the columns used by the verified endpoints). -/
structure NewsArticle where
  id : Nat
  title : String
  full_text : String
  tags : String
  tickers : String
  created_at : Nat
deriving DecidableEq, Repr

/-- Database plus current user, as visible to one request. -/
structure AppState where
  articles : List NewsArticle
  user : UserM

/-- `db.query(NewsArticle).filter(NewsArticle.id == news_id).first()`. -/
def findArticle (db : List NewsArticle) (newsId : Nat) : Option NewsArticle :=
  db.find? (fun a => a.id == newsId)

/-! ### `users.py`: tag updates and ticker favorites -/

/-- One iteration of the `_update_user_tags` loop body: look the stripped tag
name up in `FIELD_MAP` and, when it names an existing user field
(`hasattr`), bump that field by `increment`. -/
def updateTagStep (increment : Int) (u : UserM) (tagName : String) : UserM :=
  match FIELD_MAP tagName with
  | some fieldName =>
      if fieldName ∈ TAG_MAP.map Prod.fst then
        { u with scores := Function.update u.scores fieldName (u.scores fieldName + increment) }
      else u
  | none => u

/-- Model of `_update_user_tags`: split the article tag string on commas,
strip each piece, map it through `FIELD_MAP`, and bump the matching user
field by `increment` (skipping unknown tags); empty/missing tags do nothing. -/
def update_user_tags (user : UserM) (newsTags : String) (increment : Int) : UserM :=
  if newsTags = "" then user
  else ((pySplitComma newsTags).map pyStrip).foldl (updateTagStep increment) user

/-- How many of the stripped tag occurrences of `tags` map to the user field
`f` (0 for an empty tag string, which short-circuits the update). -/
def tagFieldOccurrences (tags f : String) : Int :=
  if tags = "" then 0
  else (((pySplitComma tags).map pyStrip).countP (fun t => decide (FIELD_MAP t = some f)) : Nat)

/-- `POST /me/like`: 404 when the article is missing, otherwise bump the
user's tag scores by `+1` per article tag. -/
def like_news (st : AppState) (newsId : Nat) : Except Nat String × AppState :=
  match findArticle st.articles newsId with
  | none => (Except.error 404, st)
  | some a =>
      (Except.ok "Like processed successfully",
       { st with user := update_user_tags st.user a.tags 1 })

/-- `POST /me/dislike`: same with `-1`. -/
def dislike_news (st : AppState) (newsId : Nat) : Except Nat String × AppState :=
  match findArticle st.articles newsId with
  | none => (Except.error 404, st)
  | some a =>
      (Except.ok "Dislike processed successfully",
       { st with user := update_user_tags st.user a.tags (-1) })

/-- The set parsed from the stored tickers string:
`{t.strip() for t in s.split(',') if t.strip()}` (as a duplicate-free list). -/
def parse_tickers (s : String) : List String :=
  (((pySplitComma s).map pyStrip).filter (fun t => !(t == ""))).dedup

/-- `", ".join(sorted(list(ticker_set)))`. -/
def joinSortedSet (l : List String) : String :=
  joinCommaSpace (List.insertionSort strLe l)

/-- The string stored by `POST /me/tickers` (`add_ticker_to_favorites`) when
the user's current tickers string is `tickersStr` and the company ticker is
`ticker`. -/
def add_ticker_to_favorites (tickersStr ticker : String) : String :=
  joinSortedSet ((parse_tickers tickersStr).insert ticker)

/-- The string stored by `DELETE /me/tickers/{ticker}`
(`remove_ticker_from_favorites`). -/
def remove_ticker_from_favorites (tickersStr ticker : String) : String :=
  joinSortedSet ((parse_tickers tickersStr).erase ticker)

/-! ### `news.py`: the news list and get-by-id endpoints -/

/-- `user_interested_tags`: tag names whose user score is `>= -1`. -/
def interestedTags (u : UserM) : List String :=
  TAG_MAP.filterMap (fun p => if -1 ≤ u.scores p.1 then some p.2 else none)

/-- An `or_` of `NewsArticle.tags.contains(tag)` conditions. -/
def tagCondition (tags : List String) (a : NewsArticle) : Bool :=
  tags.any (fun t => sqlContains a.tags t)

/-- An `or_` of `NewsArticle.tickers.contains(ticker)` conditions. -/
def tickerCondition (tickers : List String) (a : NewsArticle) : Bool :=
  tickers.any (fun t => sqlContains a.tickers t)

/-- `user_conditions` of `read_news`: the interested-tags condition (when the
user has interested tags) followed by the favorite-tickers condition (when the
tickers string is truthy). -/
def userConditions (u : UserM) : List (NewsArticle → Bool) :=
  (if (interestedTags u).isEmpty then [] else [tagCondition (interestedTags u)]) ++
  (if u.tickers = "" then [] else [tickerCondition (pySplitStrip u.tickers)])

/-- `all_conditions` of `read_news`: the `or_` over `user_conditions` (only
when the interest filter is on and `user_conditions` is non-empty), then the
optional ticker- and tag-query conditions (`None` and `[]` are both falsy in
Python, so both are modelled as `[]`). -/
def allConditions (u : UserM) (filt : Bool) (tickersQ tagsQ : List String) :
    List (NewsArticle → Bool) :=
  (if filt then
    (if (userConditions u).isEmpty then []
     else [fun a => (userConditions u).any (fun c => c a)])
   else []) ++
  (if tickersQ.isEmpty then [] else [tickerCondition tickersQ]) ++
  (if tagsQ.isEmpty then [] else [tagCondition tagsQ])

/-- Ordering used by `order_by(NewsArticle.created_at.desc())`. -/
def newsDescLe (a b : NewsArticle) : Prop := b.created_at ≤ a.created_at

instance : DecidableRel newsDescLe := fun _ _ => Nat.decLe _ _

/-- `query.order_by(NewsArticle.created_at.desc())`. -/
def sortDesc (db : List NewsArticle) : List NewsArticle :=
  List.insertionSort newsDescLe db

/-- `GET /news/` (`read_news`): filter by the conjunction of the collected
conditions, newest first, limited to `top`. -/
def read_news (db : List NewsArticle) (u : UserM) (filt : Bool)
    (tickersQ tagsQ : List String) (top : Nat) : List NewsArticle :=
  (sortDesc (db.filter (fun a => (allConditions u filt tickersQ tagsQ).all (fun c => c a)))).take top

/-- `GET /news/{news_id}` (`get_news_by_id`): the article or a 404. -/
def get_news_by_id (st : AppState) (newsId : Nat) : Except Nat NewsArticle × AppState :=
  match findArticle st.articles newsId with
  | none => (Except.error 404, st)
  | some a => (Except.ok a, st)

/-! ### `recommendations.py`: the per-news recommendation endpoint -/

/-- The JSON object parsed from the LLM answer, with the defaults of
`llm_data.get(...)` already applied. -/
structure LlmRecommendation where
  action : String
  ticker : Option String
  confidence : ℚ
  reasoning : String
  quantity : Int

/-- The `RecommendationResponse` schema. -/
structure RecommendationResponse where
  buy : Bool
  sell : Bool
  confidence : ℚ
  reasoning : String
  ticker : Option String
  quantity : Int

/-- Partition of the user's tags into loved (`score >= 3`), neutral
(`-1 <= score <= 2`) and unloved (`score < -1`), in `TAG_MAP` order. -/
def partitionUserTags (u : UserM) : List String × List String × List String :=
  (TAG_MAP.filterMap (fun p => if 3 ≤ u.scores p.1 then some p.2 else none),
   TAG_MAP.filterMap (fun p => if -1 ≤ u.scores p.1 ∧ u.scores p.1 ≤ 2 then some p.2 else none),
   TAG_MAP.filterMap (fun p => if u.scores p.1 < -1 then some p.2 else none))

/-- Post-processing of the LLM JSON: unknown actions collapse to `hold`, the
ticker is kept only for buy/sell. -/
def formatRecommendation (d : LlmRecommendation) : RecommendationResponse :=
  let action := if ["buy", "sell", "hold"].contains d.action then d.action else "hold"
  let buy := action == "buy"
  let sell := action == "sell"
  { buy := buy, sell := sell, confidence := d.confidence, reasoning := d.reasoning,
    ticker := if buy || sell then d.ticker else none, quantity := d.quantity }

/-- `POST /recommendations/news/{news_id}` (`get_recommendation_for_news`).
The LLM round-trip is the oracle `llm` (fed the article, the tag partition and
the favorite tickers); `operations` stands for the external brokerage history.
A missing article is a 404 before any external call; a failed LLM call is a
500; no branch writes to the database. -/
def get_recommendation_for_news (st : AppState) (newsId : Nat)
    (llm : NewsArticle → List String × List String × List String → List String →
      List String → Option LlmRecommendation)
    (operations : List String) : Except Nat RecommendationResponse × AppState :=
  match findArticle st.articles newsId with
  | none => (Except.error 404, st)
  | some a =>
      let favoriteTickers := if st.user.tickers = "" then [] else pySplitStrip st.user.tickers
      match llm a (partitionUserTags st.user) favoriteTickers operations with
      | none => (Except.error 500, st)
      | some d => (Except.ok (formatRecommendation d), st)

/-! ### Concrete instances used by counterexamples and witnesses -/

/-- An article list whose `i`-th title has `i` repeated characters (so all
seven articles are pairwise distinct values). -/
def arts7 : List Article :=
  (List.range 7).map (fun i => ⟨String.mk (List.replicate i 'a'), "text"⟩)

/-- Embedding oracle in which every pair of items has cosine similarity 1
(seven copies of the same story). -/
def simOne : Nat → Nat → ℚ := fun _ _ => 1

/-- An exact 5-nearest-neighbor oracle for 7 identical embeddings: item `i`
itself first, then the first `k - 1` other indices (a legitimate tie-break). -/
def nns7Idx : Nat → Nat → List Nat :=
  fun i k => i :: ((List.range 7).filter (fun j => !(j == i))).take (k - 1)

/-- Distance oracle returning all zeros (identical embeddings). -/
def nnsDistZero : Nat → Nat → List ℚ := fun _ k => List.replicate k 0

/-- A two-article input with identical embeddings. -/
def arts2 : List Article := [⟨"a", "x"⟩, ⟨"b", "y"⟩]

/-- Neighbor oracle for the two-item input: each item, then the other. -/
def nns2Idx : Nat → Nat → List Nat := fun i _ => [i, 1 - i]

/-- Embedding oracle in which all pairs are dissimilar. -/
def simZero : Nat → Nat → ℚ := fun _ _ => 0

/-- The dedup threshold used by the concrete traces (the source default 0.7). -/
def thr : ℚ := mkRat 7 10

/-- A user with every tag score 0 and no favorite tickers. -/
def userZero : UserM := ⟨fun _ => 0, ""⟩

/-- A user with every tag score -2 and no favorite tickers. -/
def userCold : UserM := ⟨fun _ => -2, ""⟩

/-- A finance-tagged article. -/
def artFin : NewsArticle :=
  ⟨1, "t", "b", "финансы", "SBER", 0⟩

/-- An article with an empty tag string. -/
def artNoTags : NewsArticle :=
  ⟨2, "u", "c", "", "", 1⟩

/-- A one-article application state for witnesses. -/
def stFin : AppState := ⟨[artFin], userZero⟩

/-- A two-article application state for witnesses. -/
def stTwo : AppState := ⟨[artFin, artNoTags], userZero⟩

/-- An LLM oracle that always fails. -/
def llmNone : NewsArticle → List String × List String × List String → List String →
    List String → Option LlmRecommendation := fun _ _ _ _ => none

/-! ## Helper lemmas about the deduplication pass -/

/-- Membership after folding the marking step over a neighbor list: exactly
the old members plus the listed neighbors that are similar enough to `i`. -/
theorem foldlMark_mem (sim : Nat → Nat → ℚ) (threshold : ℚ) (i : Nat) :
    ∀ (l : List Nat) (D : Finset Nat) (x : Nat),
      (x ∈ l.foldl (fun acc neighborIdx =>
          if sim i neighborIdx > threshold then insert neighborIdx acc else acc) D) ↔
        x ∈ D ∨ (x ∈ l ∧ sim i x > threshold)
  | [], D, x => by simp
  | a :: l, D, x => by
    rw [List.foldl_cons, foldlMark_mem sim threshold i l]
    by_cases h : sim i a > threshold
    · simp only [if_pos h, Finset.mem_insert, List.mem_cons]
      constructor
      · rintro ((rfl | hx) | ⟨hx, hs⟩)
        · exact Or.inr ⟨Or.inl rfl, h⟩
        · exact Or.inl hx
        · exact Or.inr ⟨Or.inr hx, hs⟩
      · rintro (hx | ⟨rfl | hx, hs⟩)
        · exact Or.inl (Or.inr hx)
        · exact Or.inl (Or.inl rfl)
        · exact Or.inr ⟨hx, hs⟩
    · simp only [if_neg h, List.mem_cons]
      constructor
      · rintro (hx | ⟨hx, hs⟩)
        · exact Or.inl hx
        · exact Or.inr ⟨Or.inr hx, hs⟩
      · rintro (hx | ⟨rfl | hx, hs⟩)
        · exact Or.inl hx
        · exact absurd hs h
        · exact Or.inr ⟨hx, hs⟩

/-- Membership in `processNeighbors`: the old duplicate set plus every
neighbor at positions `1..` whose similarity to the anchor beats the
threshold. -/
theorem processNeighbors_mem (sim : Nat → Nat → ℚ) (threshold : ℚ) (i : Nat)
    (neighbors : List Nat) (neighborDistances : List ℚ) (D : Finset Nat) (x : Nat) :
    x ∈ processNeighbors sim threshold i neighbors neighborDistances D ↔
      x ∈ D ∨ (x ∈ neighbors.drop 1 ∧ sim i x > threshold) :=
  foldlMark_mem sim threshold i (neighbors.drop 1) D x

/-- Unfolding one iteration of the pass. -/
theorem dedupLoop_succ (sim : Nat → Nat → ℚ) (nnsIdx : Nat → Nat → List Nat)
    (nnsDist : Nat → Nat → List ℚ) (threshold : ℚ) (m : Nat) :
    dedupLoop sim nnsIdx nnsDist threshold (m + 1) =
      dedupStep sim nnsIdx nnsDist threshold (dedupLoop sim nnsIdx nnsDist threshold m) m := by
  simp [dedupLoop, List.range_succ]

/-- Each iteration only grows the seen-set. -/
theorem dedupLoop_dups_subset_succ (sim : Nat → Nat → ℚ) (nnsIdx : Nat → Nat → List Nat)
    (nnsDist : Nat → Nat → List ℚ) (threshold : ℚ) (m : Nat) :
    (dedupLoop sim nnsIdx nnsDist threshold m).duplicate_indices ⊆
      (dedupLoop sim nnsIdx nnsDist threshold (m + 1)).duplicate_indices := by
  rw [dedupLoop_succ]
  unfold dedupStep
  split
  · exact subset_rfl
  · intro x hx
    exact (processNeighbors_mem sim threshold m (nnsIdx m 5) (nnsDist m 5)
      (dedupLoop sim nnsIdx nnsDist threshold m).duplicate_indices x).mpr (Or.inl hx)

/-- The seen-set is monotone along the pass. -/
theorem dedupLoop_dups_mono (sim : Nat → Nat → ℚ) (nnsIdx : Nat → Nat → List Nat)
    (nnsDist : Nat → Nat → List ℚ) (threshold : ℚ) {m mm : Nat} (h : m ≤ mm) :
    (dedupLoop sim nnsIdx nnsDist threshold m).duplicate_indices ⊆
      (dedupLoop sim nnsIdx nnsDist threshold mm).duplicate_indices := by
  induction mm, h using Nat.le_induction with
  | base => exact subset_rfl
  | succ n hmn ih => exact ih.trans (dedupLoop_dups_subset_succ sim nnsIdx nnsDist threshold n)

/-- Every recorded query has anchor `< m` and `k = 5`. -/
theorem dedupLoop_queried_bounds (sim : Nat → Nat → ℚ) (nnsIdx : Nat → Nat → List Nat)
    (nnsDist : Nat → Nat → List ℚ) (threshold : ℚ) :
    ∀ (m : Nat) (p : Nat × Nat), p ∈ (dedupLoop sim nnsIdx nnsDist threshold m).queried →
      p.1 < m ∧ p.2 = 5
  | 0, p, hp => by simp [dedupLoop] at hp
  | m + 1, p, hp => by
    rw [dedupLoop_succ] at hp
    unfold dedupStep at hp
    split at hp
    · have := dedupLoop_queried_bounds sim nnsIdx nnsDist threshold m p hp
      exact ⟨Nat.lt_succ_of_lt this.1, this.2⟩
    · simp only [List.mem_append, List.mem_singleton] at hp
      rcases hp with hp | hp
      · have := dedupLoop_queried_bounds sim nnsIdx nnsDist threshold m p hp
        exact ⟨Nat.lt_succ_of_lt this.1, this.2⟩
      · rw [hp]; exact ⟨Nat.lt_succ_self m, rfl⟩

/-- A `k = 5` query is recorded for `i` exactly when `i` is in range and was
not yet in the seen-set when the pass reached it. -/
theorem dedupLoop_queried_iff (sim : Nat → Nat → ℚ) (nnsIdx : Nat → Nat → List Nat)
    (nnsDist : Nat → Nat → List ℚ) (threshold : ℚ) (i : Nat) :
    ∀ m : Nat, ((i, 5) ∈ (dedupLoop sim nnsIdx nnsDist threshold m).queried ↔
      i < m ∧ i ∉ (dedupLoop sim nnsIdx nnsDist threshold i).duplicate_indices)
  | 0 => by simp [dedupLoop]
  | m + 1 => by
    rw [dedupLoop_succ]
    unfold dedupStep
    split
    · next hm =>
      rw [dedupLoop_queried_iff sim nnsIdx nnsDist threshold i m]
      constructor
      · rintro ⟨h1, h2⟩; exact ⟨Nat.lt_succ_of_lt h1, h2⟩
      · rintro ⟨h1, h2⟩
        rcases Nat.lt_succ_iff_lt_or_eq.mp h1 with h1 | rfl
        · exact ⟨h1, h2⟩
        · exact absurd hm h2
    · next hm =>
      simp only [List.mem_append, List.mem_singleton, Prod.mk.injEq]
      rw [dedupLoop_queried_iff sim nnsIdx nnsDist threshold i m]
      constructor
      · rintro (⟨h1, h2⟩ | ⟨rfl, _⟩)
        · exact ⟨Nat.lt_succ_of_lt h1, h2⟩
        · exact ⟨Nat.lt_succ_self i, hm⟩
      · rintro ⟨h1, h2⟩
        rcases Nat.lt_succ_iff_lt_or_eq.mp h1 with h1 | rfl
        · exact Or.inl ⟨h1, h2⟩
        · exact Or.inr (by simp)

/-- The recorded query list never repeats an anchor. -/
theorem dedupLoop_queried_nodup (sim : Nat → Nat → ℚ) (nnsIdx : Nat → Nat → List Nat)
    (nnsDist : Nat → Nat → List ℚ) (threshold : ℚ) :
    ∀ m : Nat, (dedupLoop sim nnsIdx nnsDist threshold m).queried.Nodup
  | 0 => by simp [dedupLoop]
  | m + 1 => by
    rw [dedupLoop_succ]
    unfold dedupStep
    split
    · exact dedupLoop_queried_nodup sim nnsIdx nnsDist threshold m
    · rw [List.nodup_append]
      refine ⟨dedupLoop_queried_nodup sim nnsIdx nnsDist threshold m, List.nodup_singleton _, ?_⟩
      intro p hp hp2
      rw [List.mem_singleton] at hp2
      have := (dedupLoop_queried_bounds sim nnsIdx nnsDist threshold m p hp).1
      rw [hp2] at this
      exact Nat.lt_irrefl m this

/-- Membership in the survivor index list. -/
theorem survivorIndices_mem (sim : Nat → Nat → ℚ) (nnsIdx : Nat → Nat → List Nat)
    (nnsDist : Nat → Nat → List ℚ) (threshold : ℚ) (n i : Nat) :
    i ∈ survivorIndices sim nnsIdx nnsDist threshold n ↔
      i < n ∧ i ∉ (dedupLoop sim nnsIdx nnsDist threshold n).duplicate_indices := by
  simp [survivorIndices, List.mem_filter, List.mem_range]

/-! ## Claim theorems: deduplication (C1, C2, C3, C4, C8) -/

/-- C1 counterexample: on seven articles with pairwise-identical embeddings
(cosine similarity 1 everywhere) and an exact 5-nearest-neighbor oracle, the
routine returns the articles at input positions 5 and 6, two distinct
articles whose similarity 1 exceeds the threshold 0.7.  The k = 5 query cap
(4 usable neighbors) plus the skip of already-marked anchors lets the pair
survive, so the output is not free of near-duplicate pairs. -/
theorem dedup_keeps_near_duplicate_pair :
    5 ∈ survivorIndices simOne nns7Idx nnsDistZero thr 7 ∧
    6 ∈ survivorIndices simOne nns7Idx nnsDistZero thr 7 ∧
    simOne 5 6 > thr ∧
    deduplicate_news_with_annoy arts7 simOne nns7Idx nnsDistZero thr =
      [⟨String.mk (List.replicate 5 'a'), "text"⟩,
       ⟨String.mk (List.replicate 6 'a'), "text"⟩] ∧
    (⟨String.mk (List.replicate 5 'a'), "text"⟩ : Article) ≠
      ⟨String.mk (List.replicate 6 'a'), "text"⟩ := by
  decide

/-- C1 (amended): among the surviving articles there is no near-duplicate
pair that the neighbor query actually surfaced: if `i` and `j` both survive
and `j` appears at positions `1..` of the k = 5 query answer for `i`, then
their exact cosine similarity is at most the threshold.  (Near-duplicate
pairs never reported by a query can both survive.) -/
theorem dedup_no_reported_near_duplicate_survives (sim : Nat → Nat → ℚ)
    (nnsIdx : Nat → Nat → List Nat) (nnsDist : Nat → Nat → List ℚ) (threshold : ℚ)
    (n i j : Nat)
    (hi : i ∈ survivorIndices sim nnsIdx nnsDist threshold n)
    (hj : j ∈ survivorIndices sim nnsIdx nnsDist threshold n)
    (hnbr : j ∈ (nnsIdx i 5).drop 1) :
    sim i j ≤ threshold := by
  rcases (survivorIndices_mem sim nnsIdx nnsDist threshold n i).mp hi with ⟨hin, hiD⟩
  rcases (survivorIndices_mem sim nnsIdx nnsDist threshold n j).mp hj with ⟨hjn, hjD⟩
  by_contra hgt
  rw [not_le] at hgt
  have hiDi : i ∉ (dedupLoop sim nnsIdx nnsDist threshold i).duplicate_indices :=
    fun h => hiD (dedupLoop_dups_mono sim nnsIdx nnsDist threshold (le_of_lt hin) h)
  have hstep : (dedupLoop sim nnsIdx nnsDist threshold (i + 1)).duplicate_indices =
      processNeighbors sim threshold i (nnsIdx i 5) (nnsDist i 5)
        (dedupLoop sim nnsIdx nnsDist threshold i).duplicate_indices := by
    rw [dedupLoop_succ]
    unfold dedupStep
    rw [if_neg hiDi]
  have hjmem : j ∈ (dedupLoop sim nnsIdx nnsDist threshold (i + 1)).duplicate_indices := by
    rw [hstep]
    exact (processNeighbors_mem sim threshold i (nnsIdx i 5) (nnsDist i 5)
      (dedupLoop sim nnsIdx nnsDist threshold i).duplicate_indices j).mpr
      (Or.inr ⟨hnbr, hgt⟩)
  exact hjD (dedupLoop_dups_mono sim nnsIdx nnsDist threshold (Nat.succ_le_of_lt hin) hjmem)

/-- C1 amended-theorem witness at a concrete dissimilar pair. -/
theorem dedup_no_reported_near_duplicate_survives_witness :
    simZero 0 1 ≤ thr :=
  dedup_no_reported_near_duplicate_survives simZero nns2Idx nnsDistZero thr 2 0 1
    (by decide) (by decide) (by decide)

/-- C2: the duplicate decision uses only the recomputed exact cosine
similarity `sim`, tested strictly against the threshold; the distances
returned by the Annoy query never influence the outcome.  First conjunct:
the routine's output is invariant under arbitrary changes of the distance
oracle.  Second conjunct: a neighbor is marked during an anchor's inner loop
exactly when it was already marked or its recomputed similarity strictly
exceeds the threshold. -/
theorem dedup_decision_by_recomputed_similarity (articles : List Article)
    (sim : Nat → Nat → ℚ) (nnsIdx : Nat → Nat → List Nat) (threshold : ℚ) :
    (∀ nnsDist nnsDist2 : Nat → Nat → List ℚ,
      deduplicate_news_with_annoy articles sim nnsIdx nnsDist threshold =
        deduplicate_news_with_annoy articles sim nnsIdx nnsDist2 threshold) ∧
    (∀ (i : Nat) (neighbors : List Nat) (neighborDistances : List ℚ)
        (D : Finset Nat) (x : Nat),
      x ∈ processNeighbors sim threshold i neighbors neighborDistances D ↔
        x ∈ D ∨ (x ∈ neighbors.drop 1 ∧ sim i x > threshold)) :=
  ⟨fun _ _ => rfl,
   fun i neighbors neighborDistances D x =>
     processNeighbors_mem sim threshold i neighbors neighborDistances D x⟩

/-- C3 counterexample: on a two-article input where article 1 is marked as a
duplicate of article 0, no 5-neighbor query is ever issued for index 1, so
it is not the case that every index of a non-empty input gets a query. -/
theorem dedup_skips_query_for_marked_index :
    arts2 ≠ [] ∧ 1 < arts2.length ∧
    (1, 5) ∉ (dedupLoop simOne nns2Idx nnsDistZero thr arts2.length).queried := by
  decide

/-- C3 (amended): one text is embedded per article, and the pass issues a
k = 5 nearest-neighbor query exactly for those indices that are not already
in the duplicate set when their turn comes (marked indices are skipped by
`continue` and get no query); every query made uses k = 5. -/
theorem dedup_embeds_all_and_queries_unmarked (articles : List Article)
    (sim : Nat → Nat → ℚ) (nnsIdx : Nat → Nat → List Nat)
    (nnsDist : Nat → Nat → List ℚ) (threshold : ℚ) (i : Nat) :
    (textsToVectorize articles).length = articles.length ∧
    ((i, 5) ∈ (dedupLoop sim nnsIdx nnsDist threshold articles.length).queried ↔
      i < articles.length ∧
        i ∉ (dedupLoop sim nnsIdx nnsDist threshold i).duplicate_indices) ∧
    (∀ p ∈ (dedupLoop sim nnsIdx nnsDist threshold articles.length).queried, p.2 = 5) :=
  ⟨by simp [textsToVectorize],
   dedupLoop_queried_iff sim nnsIdx nnsDist threshold i articles.length,
   fun p hp => (dedupLoop_queried_bounds sim nnsIdx nnsDist threshold articles.length p hp).2⟩

/-- C4: the pass is a single in-order sweep with a grow-only seen-set: the
duplicate set after a longer prefix of iterations contains the one after a
shorter prefix (indices are only ever added); the recorded query list never
repeats an anchor (each index is visited at most once); and an index that is
already in the seen-set when its turn comes is never used as a query anchor. -/
theorem dedup_seen_set_invariants (sim : Nat → Nat → ℚ) (nnsIdx : Nat → Nat → List Nat)
    (nnsDist : Nat → Nat → List ℚ) (threshold : ℚ) (n m mm i : Nat) :
    (m ≤ mm → (dedupLoop sim nnsIdx nnsDist threshold m).duplicate_indices ⊆
      (dedupLoop sim nnsIdx nnsDist threshold mm).duplicate_indices) ∧
    (dedupLoop sim nnsIdx nnsDist threshold n).queried.Nodup ∧
    (i ∈ (dedupLoop sim nnsIdx nnsDist threshold i).duplicate_indices →
      (i, 5) ∉ (dedupLoop sim nnsIdx nnsDist threshold n).queried) :=
  ⟨fun h => dedupLoop_dups_mono sim nnsIdx nnsDist threshold h,
   dedupLoop_queried_nodup sim nnsIdx nnsDist threshold n,
   fun hmem hq =>
     ((dedupLoop_queried_iff sim nnsIdx nnsDist threshold i n).mp hq).2 hmem⟩

/-- C4 witness on the concrete two-article trace (index 1 is marked while
processing index 0, and indeed never queried). -/
theorem dedup_seen_set_invariants_witness :
    ((dedupLoop simOne nns2Idx nnsDistZero thr 1).duplicate_indices ⊆
      (dedupLoop simOne nns2Idx nnsDistZero thr 2).duplicate_indices) ∧
    (1, 5) ∉ (dedupLoop simOne nns2Idx nnsDistZero thr 2).queried :=
  ⟨(dedup_seen_set_invariants simOne nns2Idx nnsDistZero thr 2 1 2 1).1 (by decide),
   (dedup_seen_set_invariants simOne nns2Idx nnsDistZero thr 2 1 2 1).2.2 (by decide)⟩

/-- C8: the returned list is a subsequence of the input list (every output
element occurs in the input and relative order is preserved), its length
never exceeds the input length, and the empty input yields the empty list. -/
theorem dedup_output_subsequence_of_input (articles : List Article)
    (sim : Nat → Nat → ℚ) (nnsIdx : Nat → Nat → List Nat)
    (nnsDist : Nat → Nat → List ℚ) (threshold : ℚ) :
    List.Sublist (deduplicate_news_with_annoy articles sim nnsIdx nnsDist threshold)
      articles ∧
    (deduplicate_news_with_annoy articles sim nnsIdx nnsDist threshold).length ≤
      articles.length ∧
    (∀ a ∈ deduplicate_news_with_annoy articles sim nnsIdx nnsDist threshold,
      a ∈ articles) ∧
    deduplicate_news_with_annoy [] sim nnsIdx nnsDist threshold = [] := by
  have hsub : List.Sublist
      (deduplicate_news_with_annoy articles sim nnsIdx nnsDist threshold) articles := by
    unfold deduplicate_news_with_annoy
    split
    · exact List.nil_sublist articles
    · have h1 := List.filter_sublist (p := fun p : Nat × Article =>
        decide (p.1 ∉ (dedupLoop sim nnsIdx nnsDist threshold
          articles.length).duplicate_indices)) articles.enum
      have h2 := h1.map Prod.snd
      rwa [List.enum_map_snd] at h2
  exact ⟨hsub, hsub.length_le, fun a ha => hsub.subset ha, rfl⟩

/-! ## Helper lemmas about tag updates and article lookup -/

/-- A tag that `FIELD_MAP` resolves always names a real user field, so the
`hasattr` guard in `_update_user_tags` always passes for it. -/
theorem FIELD_MAP_mem_fields (t f : String) (h : FIELD_MAP t = some f) :
    f ∈ TAG_MAP.map Prod.fst := by
  unfold FIELD_MAP at h
  rcases Option.map_eq_some'.mp h with ⟨p, hp, hpf⟩
  exact hpf ▸ List.mem_map_of_mem Prod.fst (List.mem_of_find?_eq_some hp)

/-- Pointwise effect of one loop iteration on a score field. -/
theorem updateTagStep_scores (increment : Int) (u : UserM) (t f : String) :
    (updateTagStep increment u t).scores f =
      u.scores f + (if FIELD_MAP t = some f then increment else 0) := by
  cases hF : FIELD_MAP t with
  | none => simp [updateTagStep, hF]
  | some fn =>
    simp only [updateTagStep, hF, if_pos (FIELD_MAP_mem_fields t fn hF)]
    by_cases hf : fn = f
    · subst hf
      simp
    · simp [Function.update_noteq (fun h => hf h.symm), hf]

/-- One loop iteration never touches the tickers string. -/
theorem updateTagStep_tickers (increment : Int) (u : UserM) (t : String) :
    (updateTagStep increment u t).tickers = u.tickers := by
  cases hF : FIELD_MAP t with
  | none => simp [updateTagStep, hF]
  | some fn =>
    simp only [updateTagStep, hF]
    by_cases hm : fn ∈ TAG_MAP.map Prod.fst <;> simp [hm]

/-- Effect on one score field of folding the per-tag bump over a tag list:
the field moves by `increment` times the number of tag occurrences that
`FIELD_MAP` sends to it. -/
theorem updateFold_scores (increment : Int) (f : String) :
    ∀ (l : List String) (u : UserM),
      (l.foldl (updateTagStep increment) u).scores f =
      u.scores f + increment * (l.countP (fun t => decide (FIELD_MAP t = some f)) : Nat)
  | [], u => by simp
  | t :: l, u => by
    rw [List.foldl_cons, List.countP_cons, updateFold_scores increment f l _,
      updateTagStep_scores increment u t f]
    by_cases h : FIELD_MAP t = some f
    · rw [if_pos h, if_pos (by simp [h])]
      push_cast
      ring
    · rw [if_neg h, if_neg (by simp [h])]
      push_cast
      ring

/-- Folding the per-tag bump never touches the tickers string. -/
theorem updateFold_tickers (increment : Int) :
    ∀ (l : List String) (u : UserM),
      (l.foldl (updateTagStep increment) u).tickers = u.tickers
  | [], _ => rfl
  | t :: l, u => by
    rw [List.foldl_cons, updateFold_tickers increment l _, updateTagStep_tickers]

/-- Score equation for `_update_user_tags`. -/
theorem update_user_tags_scores (u : UserM) (newsTags : String) (increment : Int)
    (f : String) :
    (update_user_tags u newsTags increment).scores f =
      u.scores f + increment * tagFieldOccurrences newsTags f := by
  unfold update_user_tags tagFieldOccurrences
  by_cases h : newsTags = ""
  · rw [if_pos h, if_pos h]; ring
  · rw [if_neg h, if_neg h]; exact updateFold_scores increment f _ u

/-- `_update_user_tags` does not touch the tickers string. -/
theorem update_user_tags_tickers (u : UserM) (newsTags : String) (increment : Int) :
    (update_user_tags u newsTags increment).tickers = u.tickers := by
  unfold update_user_tags
  by_cases h : newsTags = ""
  · rw [if_pos h]
  · rw [if_neg h]; exact updateFold_tickers increment _ u

/-- `_update_user_tags` with an empty tag string is the identity. -/
theorem update_user_tags_empty (u : UserM) (increment : Int) :
    update_user_tags u "" increment = u := by
  unfold update_user_tags
  rw [if_pos rfl]

/-- `first()` returns `None` exactly when no row matches the id filter. -/
theorem findArticle_eq_none (db : List NewsArticle) (newsId : Nat) :
    findArticle db newsId = none ↔ ∀ a ∈ db, a.id ≠ newsId := by
  unfold findArticle
  rw [List.find?_eq_none]
  simp

/-- A found row is a member of the table and matches the id filter. -/
theorem findArticle_some (db : List NewsArticle) (newsId : Nat) (a : NewsArticle)
    (h : findArticle db newsId = some a) : a ∈ db ∧ a.id = newsId := by
  unfold findArticle at h
  exact ⟨List.mem_of_find?_eq_some h, by simpa using List.find?_some h⟩

/-! ## Claim theorems: like/dislike tag updates (C6) and 404 handling (C7) -/

/-- C6: on an existing article, liking moves each user score field up by
exactly one per article-tag occurrence that `FIELD_MAP` sends to that field
(so a field mapped by no listed tag is unchanged), disliking moves it down by
the same count, neither operation touches the tickers string or the stored
articles, and an article with an empty tag string changes nothing at all. -/
theorem like_dislike_update_tag_scores_exactly (st : AppState) (newsId : Nat)
    (a : NewsArticle) (hfind : findArticle st.articles newsId = some a) (f : String) :
    ((like_news st newsId).2.user.scores f =
      st.user.scores f + tagFieldOccurrences a.tags f) ∧
    ((dislike_news st newsId).2.user.scores f =
      st.user.scores f - tagFieldOccurrences a.tags f) ∧
    ((like_news st newsId).2.user.tickers = st.user.tickers) ∧
    ((like_news st newsId).2.articles = st.articles) ∧
    ((dislike_news st newsId).2.user.tickers = st.user.tickers) ∧
    ((dislike_news st newsId).2.articles = st.articles) ∧
    (a.tags = "" → (like_news st newsId).2 = st ∧ (dislike_news st newsId).2 = st) := by
  simp only [like_news, dislike_news, hfind]
  refine ⟨?_, ?_, ?_, ?_, ?_, ?_, ?_⟩
  · rw [update_user_tags_scores]; ring
  · rw [update_user_tags_scores]; ring
  · exact update_user_tags_tickers st.user a.tags 1
  · trivial
  · exact update_user_tags_tickers st.user a.tags (-1)
  · trivial
  · intro h
    rw [h, update_user_tags_empty, update_user_tags_empty]
    exact ⟨rfl, rfl⟩

/-- C6 witness: liking the finance-tagged article bumps `tag_finance` from 0
by its single occurrence. -/
theorem like_dislike_update_tag_scores_witness :
    (like_news stFin 1).2.user.scores "tag_finance" =
      stFin.user.scores "tag_finance" + tagFieldOccurrences artFin.tags "tag_finance" :=
  (like_dislike_update_tag_scores_exactly stFin 1 artFin (by decide) "tag_finance").1

/-- C7: each endpoint that takes a news id (get by id, like, dislike,
recommendation) answers HTTP 404 exactly when no stored article has that id,
and whenever it fails with 404 the application state is returned unchanged
(get-by-id and the recommendation endpoint never change state at all). -/
theorem news_id_endpoints_404_iff_missing_and_atomic (st : AppState) (newsId : Nat)
    (llm : NewsArticle → List String × List String × List String → List String →
      List String → Option LlmRecommendation)
    (operations : List String) :
    (((get_news_by_id st newsId).1 = Except.error 404) ↔
      ∀ a ∈ st.articles, a.id ≠ newsId) ∧
    ((get_news_by_id st newsId).2 = st) ∧
    (((like_news st newsId).1 = Except.error 404) ↔
      ∀ a ∈ st.articles, a.id ≠ newsId) ∧
    ((like_news st newsId).1 = Except.error 404 → (like_news st newsId).2 = st) ∧
    (((dislike_news st newsId).1 = Except.error 404) ↔
      ∀ a ∈ st.articles, a.id ≠ newsId) ∧
    ((dislike_news st newsId).1 = Except.error 404 → (dislike_news st newsId).2 = st) ∧
    (((get_recommendation_for_news st newsId llm operations).1 = Except.error 404) ↔
      ∀ a ∈ st.articles, a.id ≠ newsId) ∧
    ((get_recommendation_for_news st newsId llm operations).2 = st) := by
  cases hf : findArticle st.articles newsId with
  | none =>
    have hr : ∀ a ∈ st.articles, a.id ≠ newsId :=
      (findArticle_eq_none st.articles newsId).mp hf
    simp only [get_news_by_id, like_news, dislike_news, get_recommendation_for_news, hf]
    refine ⟨iff_of_true (by trivial) hr, by trivial, iff_of_true (by trivial) hr,
      fun _ => by trivial, iff_of_true (by trivial) hr, fun _ => by trivial,
      iff_of_true (by trivial) hr, by trivial⟩
  | some a =>
    have hmem := findArticle_some st.articles newsId a hf
    have hr : ¬ ∀ b ∈ st.articles, b.id ≠ newsId := fun h => h a hmem.1 hmem.2
    simp only [get_news_by_id, like_news, dislike_news, get_recommendation_for_news, hf]
    refine ⟨iff_of_false (by simp) hr, by trivial, iff_of_false (by simp) hr, ?_,
      iff_of_false (by simp) hr, ?_, ?_, ?_⟩
    · intro h; simp at h
    · intro h; simp at h
    · cases llm a (partitionUserTags st.user)
        (if st.user.tickers = "" then [] else pySplitStrip st.user.tickers) operations with
      | none => exact iff_of_false (by simp) hr
      | some d => exact iff_of_false (by simp) hr
    · cases llm a (partitionUserTags st.user)
        (if st.user.tickers = "" then [] else pySplitStrip st.user.tickers) operations with
      | none => rfl
      | some d => rfl

/-- C7 witness: looking up the absent id 9 in the one-article state. -/
theorem news_id_endpoints_404_witness :
    ((get_news_by_id stFin 9).1 = Except.error 404) ↔ ∀ a ∈ stFin.articles, a.id ≠ 9 :=
  (news_id_endpoints_404_iff_missing_and_atomic stFin 9 llmNone []).1

/-! ## Helper lemmas about the news-list query -/

/-- An article in the news-list answer comes from the table and passes every
collected condition. -/
theorem read_news_mem_filter (db : List NewsArticle) (u : UserM) (filt : Bool)
    (tickersQ tagsQ : List String) (top : Nat) (a : NewsArticle)
    (ha : a ∈ read_news db u filt tickersQ tagsQ top) :
    a ∈ db ∧ (allConditions u filt tickersQ tagsQ).all (fun c => c a) = true := by
  unfold read_news sortDesc at ha
  have h1 := List.mem_of_mem_take ha
  have h2 := (List.perm_insertionSort newsDescLe _).mem_iff.mp h1
  rw [List.mem_filter] at h2
  exact h2

/-! ## Claim theorems: interest filtering of the news list (C5, C9) -/

/-- C5: when the interest filter is on and the user has at least one tag
scored `>= -1` or a non-empty tickers string, every article returned by the
news-list endpoint contains (as a substring, SQL `LIKE`-style) one of the
user's interested tags in its tag string, or the user's tickers string is
non-empty and the article contains one of the user's favorite tickers in its
ticker string.  (The second disjunct carries `u.tickers ≠ ""`, so for a user
without tickers the theorem forces the interested-tag disjunct.) -/
theorem read_news_interest_filter_sound (db : List NewsArticle) (u : UserM)
    (tickersQ tagsQ : List String) (top : Nat) (a : NewsArticle)
    (hu : (∃ p ∈ TAG_MAP, -1 ≤ u.scores p.1) ∨ u.tickers ≠ "")
    (ha : a ∈ read_news db u true tickersQ tagsQ top) :
    (∃ t ∈ interestedTags u, sqlContains a.tags t = true) ∨
    (u.tickers ≠ "" ∧ ∃ t ∈ pySplitStrip u.tickers, sqlContains a.tickers t = true) := by
  have hne : ¬(userConditions u).isEmpty = true := by
    unfold userConditions
    rcases hu with ⟨p, hp, hscore⟩ | hu
    · have hmem : p.2 ∈ interestedTags u := by
        unfold interestedTags
        exact List.mem_filterMap.mpr ⟨p, hp, by rw [if_pos hscore]⟩
      have hni : ¬(interestedTags u).isEmpty = true := by
        intro h
        rw [List.isEmpty_iff] at h
        rw [h] at hmem
        exact List.not_mem_nil _ hmem
      rw [if_neg hni]
      simp
    · rw [if_neg hu]
      by_cases hI : (interestedTags u).isEmpty <;> simp [hI]
  have hall := (read_news_mem_filter db u true tickersQ tagsQ top a ha).2
  rw [List.all_eq_true] at hall
  have hcond : (fun b => (userConditions u).any (fun c => c b)) ∈
      allConditions u true tickersQ tagsQ := by
    unfold allConditions
    simp [hne]
  have hany := hall _ hcond
  rcases List.any_eq_true.mp hany with ⟨c, hc, hca⟩
  unfold userConditions at hc
  rw [List.mem_append] at hc
  rcases hc with hc | hc
  · by_cases h1 : (interestedTags u).isEmpty
    · rw [if_pos h1] at hc
      exact absurd hc (List.not_mem_nil c)
    · rw [if_neg h1, List.mem_singleton] at hc
      subst hc
      simp only [tagCondition] at hca
      exact Or.inl (List.any_eq_true.mp hca)
  · by_cases h2 : u.tickers = ""
    · rw [if_pos h2] at hc
      exact absurd hc (List.not_mem_nil c)
    · rw [if_neg h2, List.mem_singleton] at hc
      subst hc
      simp only [tickerCondition] at hca
      exact Or.inr ⟨h2, List.any_eq_true.mp hca⟩

/-- C5 witness: a user with all tag scores 0 and no tickers receives the
finance-tagged article; since the tickers string is empty the theorem forces
the interested-tag disjunct, so the article provably contains one of the
interested tags. -/
theorem read_news_interest_filter_witness :
    ∃ t ∈ interestedTags userZero, sqlContains artFin.tags t = true :=
  (read_news_interest_filter_sound [artFin] userZero [] [] 10 artFin
      (Or.inl (by decide)) (by decide)).resolve_right (fun h => h.1 rfl)

/-- C9: a user whose every tag score is below -1 and whose tickers string is
empty contributes no interest condition at all, so the filtered news-list
request degrades to the plain newest-first listing (identical to the
unfiltered request) instead of returning an empty list. -/
theorem read_news_uninterested_user_gets_unfiltered (db : List NewsArticle) (u : UserM)
    (top : Nat) (h1 : ∀ p ∈ TAG_MAP, u.scores p.1 < -1) (h2 : u.tickers = "") :
    read_news db u true [] [] top = (sortDesc db).take top ∧
    read_news db u true [] [] top = read_news db u false [] [] top := by
  have hIT : interestedTags u = [] := by
    unfold interestedTags
    rw [List.filterMap_eq_nil_iff]
    intro p hp
    rw [if_neg (not_le.mpr (h1 p hp))]
  have hUC : userConditions u = [] := by
    unfold userConditions
    rw [hIT]
    simp [h2]
  have hAC : allConditions u true [] [] = [] := by
    unfold allConditions
    rw [hUC]
    simp
  have hAC2 : allConditions u false [] [] = [] := by
    unfold allConditions
    simp
  have hfilter : ∀ conds : List (NewsArticle → Bool), conds = [] →
      db.filter (fun a => conds.all (fun c => c a)) = db := by
    intro conds hconds
    rw [hconds]
    exact List.filter_eq_self.mpr (fun a _ => rfl)
  constructor
  · unfold read_news
    rw [hfilter _ hAC]
  · unfold read_news
    rw [hfilter _ hAC, hfilter _ hAC2]

/-- C9 witness: the all-scores-(-2) user gets the plain newest-first list. -/
theorem read_news_uninterested_user_witness :
    read_news [artFin] userCold true [] [] 10 = (sortDesc [artFin]).take 10 :=
  (read_news_uninterested_user_gets_unfiltered [artFin] userCold 10 (by decide) rfl).1

/-! ## Claim theorems: favorite-ticker string operations (C10) -/

/-- C10 counterexample: on the denormalized stored string `"b,a"` the ticker
`"a"` is already present, yet the add endpoint rewrites the stored string to
the normalized `"a, b"`, so adding a present ticker does not always leave the
stored string unchanged. -/
theorem add_present_ticker_can_change_string :
    "a" ∈ parse_tickers "b,a" ∧
    add_ticker_to_favorites "b,a" "a" ≠ "b,a" ∧
    add_ticker_to_favorites "b,a" "a" = "a, b" := by
  decide

/-- C10 (amended): adding an already-present ticker leaves the stored string
unchanged whenever that string is already in normalized form (as it is after
any add or remove); after any add or remove the stored string is the
comma-space join of a sorted duplicate-free list representing exactly the
updated ticker set; and removing an absent ticker merely renormalizes the
stored string without changing the parsed set. -/
theorem ticker_favorites_canonical (s t : String) :
    (s = joinSortedSet (parse_tickers s) → t ∈ parse_tickers s →
      add_ticker_to_favorites s t = s) ∧
    ((List.insertionSort strLe ((parse_tickers s).insert t)).Sorted strLe ∧
     (List.insertionSort strLe ((parse_tickers s).insert t)).Nodup ∧
     add_ticker_to_favorites s t =
       joinCommaSpace (List.insertionSort strLe ((parse_tickers s).insert t)) ∧
     (∀ x, x ∈ List.insertionSort strLe ((parse_tickers s).insert t) ↔
       (x = t ∨ x ∈ parse_tickers s))) ∧
    ((List.insertionSort strLe ((parse_tickers s).erase t)).Sorted strLe ∧
     (List.insertionSort strLe ((parse_tickers s).erase t)).Nodup ∧
     remove_ticker_from_favorites s t =
       joinCommaSpace (List.insertionSort strLe ((parse_tickers s).erase t)) ∧
     (∀ x, x ∈ List.insertionSort strLe ((parse_tickers s).erase t) ↔
       (x ≠ t ∧ x ∈ parse_tickers s))) ∧
    (t ∉ parse_tickers s →
      remove_ticker_from_favorites s t = joinSortedSet (parse_tickers s)) := by
  have hnd : (parse_tickers s).Nodup := List.nodup_dedup _
  refine ⟨?_, ⟨?_, ?_, rfl, ?_⟩, ⟨?_, ?_, rfl, ?_⟩, ?_⟩
  · intro hnorm hmem
    unfold add_ticker_to_favorites
    rw [List.insert_of_mem hmem]
    exact hnorm.symm
  · exact List.sorted_insertionSort strLe _
  · exact (List.perm_insertionSort strLe _).nodup_iff.mpr (hnd.insert)
  · intro x
    rw [(List.perm_insertionSort strLe _).mem_iff]
    exact List.mem_insert_iff
  · exact List.sorted_insertionSort strLe _
  · exact (List.perm_insertionSort strLe _).nodup_iff.mpr (hnd.erase t)
  · intro x
    rw [(List.perm_insertionSort strLe _).mem_iff]
    exact hnd.mem_erase_iff
  · intro h
    unfold remove_ticker_from_favorites
    rw [List.erase_of_not_mem h]

/-- C10 amended-theorem witness: on the normalized string `"a, b"` adding the
present ticker `"a"` is the identity, and removing the absent ticker `"c"`
only renormalizes. -/
theorem ticker_favorites_canonical_witness :
    add_ticker_to_favorites "a, b" "a" = "a, b" ∧
    remove_ticker_from_favorites "a, b" "c" = joinSortedSet (parse_tickers "a, b") :=
  ⟨(ticker_favorites_canonical "a, b" "a").1 (by decide) (by decide),
   (ticker_favorites_canonical "a, b" "c").2.2.2 (by decide)⟩

/-- C2 witness: the two-article dedup run is unchanged when the reported
distances are replaced by arbitrary other values. -/
theorem dedup_decision_by_recomputed_similarity_witness :
    deduplicate_news_with_annoy arts2 simOne nns2Idx nnsDistZero thr =
      deduplicate_news_with_annoy arts2 simOne nns2Idx (fun _ _ => [1, 1]) thr :=
  (dedup_decision_by_recomputed_similarity arts2 simOne nns2Idx thr).1
    nnsDistZero (fun _ _ => [1, 1])

/-- C3 amended-theorem witness at the concrete two-article trace. -/
theorem dedup_embeds_all_and_queries_unmarked_witness :
    (1, 5) ∈ (dedupLoop simOne nns2Idx nnsDistZero thr arts2.length).queried ↔
      1 < arts2.length ∧
        1 ∉ (dedupLoop simOne nns2Idx nnsDistZero thr 1).duplicate_indices :=
  (dedup_embeds_all_and_queries_unmarked arts2 simOne nns2Idx nnsDistZero thr 1).2.1

/-- C8 witness: the seven-article output is a subsequence of the input. -/
theorem dedup_output_subsequence_witness :
    List.Sublist (deduplicate_news_with_annoy arts7 simOne nns7Idx nnsDistZero thr) arts7 :=
  (dedup_output_subsequence_of_input arts7 simOne nns7Idx nnsDistZero thr).1
